import Mathlib

/-!
Verification of the H.264 decode-orchestration layer of this repository
(`packages/den/video/H264Decoder.ts`, the event-based variant whose `decode`
serializes on a `#decoding` promise).

The orchestrator (`H264Decoder`) is embedded as an executable small-step
system: its private fields become a `Core` record, each `decode()` call
becomes a task with explicit suspension points (the `await this.#decoding`
entry guard and the `await` on the call's own promise), and the asynchronous
environment (the engine's output callback, the 30 ms timer, `resetForSeek`,
`close`, an unexpected engine shutdown) is a list of events folded over the
state.

The NAL-unit container layer and the SPS parser live in `h264Utils.ts`,
which is not part of the sources available here; those definitions are
modelled from the specification (its Bit Reader, Classifier/Iterator and SPS
Semantic Parser sections) and are marked `Modelled from the spec:` below.
The external decoding engine (the platform `VideoDecoder`) is modelled from
the specification's external-interface contract: `configure` succeeds and
makes the engine `configured`, `reset` retains configuration, `close` makes
it `closed`, and decoded frames arrive through an output callback that the
orchestrator forwards as a `frame` event.
-/

set_option linter.unusedVariables false

namespace H264

/-! ## Bit reader (Modelled from the spec: `Bitstream` of `h264Utils.ts`) -/

/-- The eight bits of a byte, most significant first. -/
def byteBits (b : Nat) : List Nat :=
  [b / 128 % 2, b / 64 % 2, b / 32 % 2, b / 16 % 2, b / 8 % 2, b / 4 % 2, b / 2 % 2, b % 2]

/-- The bit expansion of a byte buffer, MSB first within each byte. -/
def bitsOf (buffer : List Nat) : List Nat :=
  buffer.foldr (fun b acc => byteBits b ++ acc) []

/-- Modelled from the spec: the Bit Reader state of `h264Utils.ts` — a
byte buffer with a bit cursor, represented by the MSB-first bit
expansion of the bytes still ahead of the cursor (`seek k` is
`(bitsOf buffer).drop k`); reading past the end is `Truncated`. -/
structure Bitstream where
  bits : List Nat
deriving DecidableEq, Repr

/-- Reads over a `Bitstream` that can fail (`Truncated` / unsupported). -/
def BitM (α : Type) : Type := Bitstream → Option (α × Bitstream)

instance : Monad BitM where
  pure a := fun bs => some (a, bs)
  bind m f := fun bs =>
    match m bs with
    | some (a, bs') => f a bs'
    | none => none

/-- Run a bit-level read on a stream state. -/
def BitM.run {α : Type} (m : BitM α) (bs : Bitstream) : Option (α × Bitstream) := m bs

/-- The current stream state. -/
def peekStream : BitM Bitstream := fun bs => some (bs, bs)

/-- Modelled from the spec: read one bit and advance the cursor. -/
def readBit : BitM Nat := fun bs =>
  match bs.bits with
  | [] => none
  | b :: rest => some (b, { bits := rest })

/-- Accumulator form of the fixed-width read. -/
def uAux : Nat → Nat → BitM Nat
  | 0, acc => pure acc
  | n + 1, acc => do
    let b ← readBit
    uAux n (2 * acc + b)

/-- Modelled from the spec: `readUnsigned n` — the next `n` bits, MSB
first. -/
def u (n : Nat) : BitM Nat := uAux n 0

/-- Modelled from the spec: count the leading zero bits of an Exp-Golomb
code up to its terminating `1`. Fuel bounds the loop; with fuel at least
the number of remaining bits plus one the result agrees with the
unbounded read. -/
def skipZeros : Nat → BitM Nat
  | 0 => fun _ => none
  | fuel + 1 => do
    let b ← readBit
    if b = 1 then pure 0
    else do
      let k ← skipZeros fuel
      pure (k + 1)

/-- Modelled from the spec: unsigned Exp-Golomb `ue(v)` — `k` leading
zeros, a `1`, then `k` suffix bits; value `2^k - 1 + suffix`. -/
def ue : BitM Nat := do
  let bs ← peekStream
  let k ← skipZeros (bs.bits.length + 1)
  let suffix ← u k
  pure (2 ^ k - 1 + suffix)

/-- Modelled from the spec: signed Exp-Golomb `se(v)` via the standard
mapping from the unsigned code number. -/
def se : BitM Int := do
  let cn ← ue
  if cn % 2 = 0 then pure (-(Int.ofNat (cn / 2)))
  else pure (Int.ofNat ((cn + 1) / 2))

/-- Read and discard `n` bits. -/
def skipBits (n : Nat) : BitM Unit := do
  let _ ← u n
  pure ()

/-- Read and discard one `ue(v)` field. -/
def skipUe : BitM Unit := do
  let _ ← ue
  pure ()

/-- Read and discard one `se(v)` field. -/
def skipSe : BitM Unit := do
  let _ ← se
  pure ()

/-- Read and discard `n` consecutive `se(v)` fields. -/
def skipSeN : Nat → BitM Unit
  | 0 => pure ()
  | n + 1 => do
    skipSe
    skipSeN n

/-! ## NAL-unit container layer
(Modelled from the spec: `NALUStream` of `h264Utils.ts`) -/

/-- Modelled from the spec: the container convention of a stream —
start-code delimited (`annexB`), length-prefixed (`packet`), or not yet
identifiable. -/
inductive NaluKind
  | annexB
  | packet
  | unknown
deriving DecidableEq, Repr

/-- Modelled from the spec: the Stream Format Descriptor — the container
kind plus its box size (the length-prefix width for `packet` streams, the
leading start-code length for `annexB` streams; the source requires
`boxSize` to be present for any identified stream). -/
structure NaluStreamInfo where
  kind : NaluKind
  boxSize : Nat
deriving DecidableEq, Repr

/-- Modelled from the spec: split an Annex B buffer on `00 00 01` /
`00 00 00 01` start codes, stripping them and skipping zero-length
ranges. Fuel is the buffer length; every step consumes at least one
byte, so the fuel-exhausted branch is unreachable from `splitNalus`. -/
def splitNalusAux : Nat → List Nat → List Nat → List (List Nat)
  | _, [], acc => if acc.isEmpty then [] else [acc.reverse]
  | 0, rest, acc => if (acc.reverse ++ rest).isEmpty then [] else [acc.reverse ++ rest]
  | fuel + 1, 0 :: 0 :: 0 :: 1 :: rest, acc =>
    if acc.isEmpty then splitNalusAux fuel rest []
    else acc.reverse :: splitNalusAux fuel rest []
  | fuel + 1, 0 :: 0 :: 1 :: rest, acc =>
    if acc.isEmpty then splitNalusAux fuel rest []
    else acc.reverse :: splitNalusAux fuel rest []
  | fuel + 1, b :: rest, acc => splitNalusAux fuel rest (b :: acc)

/-- Modelled from the spec: the lazy NAL-unit sequence of an Annex B
buffer, as the finite list of inter-start-code byte ranges. -/
def splitNalus (bytes : List Nat) : List (List Nat) :=
  splitNalusAux bytes.length bytes []

/-- The NAL-unit type of one unit, read exactly as the source does:
seek to bit 3 of the unit and read 5 bits (the low five bits of the
first byte). -/
def naluType (nalu : List Nat) : Option Nat :=
  match BitM.run (u 5) { bits := (bitsOf nalu).drop 3 } with
  | some (t, _) => some t
  | none => none

/-- Big-endian value of a byte list (for length prefixes). -/
def beNat (bytes : List Nat) : Nat :=
  bytes.foldl (fun a b => 256 * a + b) 0

/-- Modelled from the spec: does the whole buffer partition into
`w`-byte big-endian length prefixes each followed by a NAL that fits
in the remaining buffer? Fuel bounds the loop (buffer length suffices
since every step consumes at least the prefix). -/
def parsesWithWidth (w : Nat) : Nat → List Nat → Bool
  | _, [] => true
  | 0, _ :: _ => false
  | fuel + 1, bytes =>
    if bytes.length < w then false
    else
      let len := beNat (bytes.take w)
      let rest := bytes.drop w
      if len ≤ rest.length then parsesWithWidth w fuel (rest.drop len)
      else false

/-- Does the buffer begin with a 3- or 4-byte start code? -/
def startsWithStartCode (bytes : List Nat) : Bool :=
  match bytes with
  | 0 :: 0 :: 1 :: _ => true
  | 0 :: 0 :: 0 :: 1 :: _ => true
  | _ => false

/-- Length of the leading start code (4 for `00 00 00 01`, else 3). -/
def leadingStartCodeLen (bytes : List Nat) : Nat :=
  match bytes with
  | 0 :: 0 :: 0 :: 1 :: _ => 4
  | _ => 3

/-- Modelled from the spec: the start-code interpretation succeeds when
the buffer starts with a start code and the start codes partition the
rest into units whose type is a plausible NAL type (1–31; 0 is
reserved). -/
def annexBValid (bytes : List Nat) : Bool :=
  startsWithStartCode bytes &&
    (let units := splitNalus bytes
     !units.isEmpty && units.all (fun n =>
       match naluType n with
       | some t => decide (1 ≤ t)
       | none => false))

/-- Modelled from the spec: `classify` — try the length-prefixed
interpretation for prefix widths 4, 2 and 1 and accept the smallest
width that parses the entire buffer; otherwise try the start-code
interpretation; otherwise `unknown`. -/
def classify (bytes : List Nat) : NaluStreamInfo :=
  match ([1, 2, 4].filter fun w => parsesWithWidth w (bytes.length + 1) bytes) with
  | w :: _ => { kind := NaluKind.packet, boxSize := w }
  | [] =>
    if annexBValid bytes then
      { kind := NaluKind.annexB, boxSize := leadingStartCodeLen bytes }
    else
      { kind := NaluKind.unknown, boxSize := 0 }

/-- Modelled from the spec: rewrite each length prefix of a packet
stream as the 4-byte start code, preserving payload bytes and order.
The source throws on a malformed length; the model truncates there
(never reached for the buffers used in the development). -/
def convertToAnnexB (w : Nat) : Nat → List Nat → List Nat
  | _, [] => []
  | 0, _ => []
  | fuel + 1, bytes =>
    if bytes.length < w then []
    else
      let len := beNat (bytes.take w)
      let rest := bytes.drop w
      0 :: 0 :: 0 :: 1 :: (rest.take len ++ convertToAnnexB w fuel (rest.drop len))

/-- `_identifyNaluStreamInfo` of the source: classify, and accept only
an identified kind with a box size (the model always carries one). -/
def identifyNaluStreamInfo (bytes : List Nat) : Option NaluStreamInfo :=
  let i := classify bytes
  if i.kind = NaluKind.unknown then none else some i

/-! ## SPS semantic parser
(Modelled from the spec: `SPS` of `h264Utils.ts`) -/

/-- The profile values that carry the high-profile extension fields. -/
def highProfiles : List Nat := [100, 110, 122, 244, 44, 83, 86, 118, 128, 138, 139, 134, 135]

/-- Modelled from the spec: the data the orchestrator consumes from one
parsed SPS — the codec-identifier bytes and the derived picture
geometry. -/
structure SPSData where
  profileIdc : Nat
  constraintByte : Nat
  levelIdc : Nat
  picWidth : Nat
  picHeight : Nat
deriving DecidableEq, Repr

/-- The failing read (`Truncated` / `UnsupportedFeature`). -/
def failBit : BitM Unit := fun _ => none

/-- Modelled from the spec: the high-profile extension fields —
`chroma_format_idc` (with its nested plane flag), the bit depths, the
transform-bypass flag and the scaling-matrix flag; a present scaling
matrix is unsupported and fails the parse. Returns `chroma_format_idc`. -/
def readHighProfilePart : BitM Nat := do
  let cf ← ue
  let _ ← if cf = 3 then skipBits 1 else pure ()
  skipUe
  skipUe
  skipBits 1
  let scalingMatrix ← u 1
  let _ ← if scalingMatrix = 1 then failBit else pure ()
  pure cf

/-- Modelled from the spec: the `pic_order_cnt_type`-dependent fields. -/
def readPocPart : BitM Unit := do
  let picOrderCntType ← ue
  if picOrderCntType = 0 then
    skipUe
  else if picOrderCntType = 1 then do
    skipBits 1
    skipSe
    skipSe
    let n ← ue
    skipSeN n
  else
    pure ()

/-- Modelled from the spec: the four `frame_cropping` offsets
(left, right, top, bottom), all zero when the flag is unset. -/
def readCropPart : BitM (Nat × Nat × Nat × Nat) := do
  let cropping ← u 1
  if cropping = 1 then do
    let l ← ue
    let r ← ue
    let t ← ue
    let b ← ue
    pure (l, r, t, b)
  else
    pure (0, 0, 0, 0)

/-- Geometry derivation of the spec: crop units from the chroma
subsampling, the vertical one scaled by `2 - frame_mbs_only_flag`. -/
def mkSPSData (profileIdc constraintByte levelIdc chromaFormatIdc wMbs hMapUnits
    frameMbsOnly : Nat) (crops : Nat × Nat × Nat × Nat) : SPSData :=
  let subWidthC := if chromaFormatIdc = 1 ∨ chromaFormatIdc = 2 then 2 else 1
  let subHeightC := if chromaFormatIdc = 1 then 2 else 1
  let cropUnitX := subWidthC
  let cropUnitY := subHeightC * (2 - frameMbsOnly)
  { profileIdc := profileIdc
    constraintByte := constraintByte
    levelIdc := levelIdc
    picWidth := (wMbs + 1) * 16 - (crops.1 + crops.2.1) * cropUnitX
    picHeight := (2 - frameMbsOnly) * (hMapUnits + 1) * 16 -
      (crops.2.2.1 + crops.2.2.2) * cropUnitY }

/-- Modelled from the spec: the SPS Semantic Parser, reading the SPS
fields after the 1-byte NAL header and deriving `picWidth`/`picHeight`
from the macroblock counts, `frame_mbs_only_flag` and the crop offsets.
A present scaling matrix is an unsupported feature and fails the parse,
as does any truncated mandatory field. -/
def parseSPSM : BitM SPSData := do
  let profileIdc ← u 8
  let constraintByte ← u 8
  let levelIdc ← u 8
  skipUe
  let chromaFormatIdc ←
    if profileIdc ∈ highProfiles then readHighProfilePart else pure 1
  skipUe
  readPocPart
  skipUe
  skipBits 1
  let wMbs ← ue
  let hMapUnits ← ue
  let frameMbsOnly ← u 1
  let _ ← if frameMbsOnly = 0 then skipBits 1 else pure ()
  skipBits 1
  let crops ← readCropPart
  pure (mkSPSData profileIdc constraintByte levelIdc chromaFormatIdc wMbs hMapUnits
    frameMbsOnly crops)

/-- `new SPS(nalu)` of the source: parse the unit starting after the
1-byte NAL header; `none` models the thrown parse error. -/
def parseSPS (nalu : List Nat) : Option SPSData :=
  match BitM.run parseSPSM { bits := (bitsOf nalu).drop 8 } with
  | some (sps, _) => some sps
  | none => none

/-! ## Decode orchestrator (`H264Decoder` of `H264Decoder.ts`) -/

/-- The `VideoDecoderConfig` the source builds from a parsed SPS
(`codec` kept as the three identifier bytes; the MIME rendering of those
bytes is an external-interface detail). -/
structure VideoDecoderConfig where
  codec : Nat × Nat × Nat
  codedHeight : Nat
  codedWidth : Nat
  optimizeForLatency : Bool
deriving DecidableEq, Repr

/-- The config the source builds from one parsed SPS. -/
def mkConfig (sps : SPSData) : VideoDecoderConfig :=
  { codec := (sps.profileIdc, sps.constraintByte, sps.levelIdc)
    codedHeight := sps.picHeight
    codedWidth := sps.picWidth
    optimizeForLatency := true }

/-- The SPS scan loop of `_getDecoderConfig`: walk the NAL units; at the
first unit of type SPS (7), return its config on a successful parse and
`undefined` on a parse error (the source returns from inside the loop in
both cases); `undefined` when no SPS is present. -/
def scanConfig : List (List Nat) → Option VideoDecoderConfig
  | [] => none
  | n :: rest =>
    if naluType n = some 7 then
      match parseSPS n with
      | some sps => some (mkConfig sps)
      | none => none
    else scanConfig rest

/-- `_getDecoderConfig` as a function of the cache: the cached value when
set, otherwise the scan of the frame's NAL units. -/
def deriveConfig : Option VideoDecoderConfig → List Nat → Option VideoDecoderConfig
  | some cfg, _ => some cfg
  | none, ab => scanConfig (splitNalus ab)

/-- `isKeyFrame` of the source: true iff some NAL unit of the Annex B
frame has type IDR (5). -/
def isKeyFrame (ab : List Nat) : Bool :=
  (splitNalus ab).any fun n => naluType n = some 5

/-- State of the external decoding engine (the platform `VideoDecoder`),
modelled from the spec's external-interface contract. -/
inductive EngineState
  | unconfigured
  | configured
  | closed
deriving DecidableEq, Repr

/-- Diagnostics the orchestrator emits (the `debug`/`warn`/`error`
events of the source, by site). -/
inductive Note
  | warnClosed
  | warnTimeout
  | warnNotConfigured
  | errAnnexB
  | debugSkipNonKey
  | debugConfiguring
  | debugDecoded
deriving DecidableEq, Repr

/-- One chunk submitted to the engine: its key/delta flag, its Annex B
bytes and the internal timestamp attached by the orchestrator. -/
structure Submission where
  key : Bool
  data : List Nat
  sentTimestamp : Nat
deriving DecidableEq, Repr

/-- The orchestrator's fields plus the bookkeeping of its asynchronous
environment. `decoding`, `pendingFrame`, `hasKeyframe`, `timestamp` and
the two caches are the source's private fields; `engine`/`engineGen`
model the current `VideoDecoder` instance and how many times a fresh one
was created; `timers` are the armed 30 ms timeouts and `handlers` the
registered `once("frame")` listeners, both keyed by the promise id they
resolve; `resolved` are the settled promise ids; `submissions` is the
ordered log of `#decoder.decode` calls; `closedFrames` is the ordered log
of `frame.close()` calls the orchestrator itself performs. -/
structure Core where
  engine : EngineState
  engineGen : Nat
  engineResets : Nat
  naluStreamInfo : Option NaluStreamInfo
  videoDecoderConfig : Option VideoDecoderConfig
  hasKeyframe : Bool
  decoding : Option Nat
  pendingFrame : Option Nat
  timestamp : Nat
  nextPromise : Nat
  timers : List Nat
  handlers : List Nat
  resolved : List Nat
  submissions : List Submission
  closedFrames : List Nat
  log : List Note
deriving DecidableEq, Repr

/-- Where one `decode()` call stands: parked at the entry guard
(`await this.#decoding`, remembering its arguments), suspended on its
own submission promise, or returned with its result. -/
inductive Phase
  | guardWait (p : Nat) (data : List Nat) (tsMicros : Nat)
  | bodyWait (p : Nat)
  | done (res : Option Nat)
deriving DecidableEq, Repr

/-- Whether a call has returned. -/
def Phase.isDone : Phase → Bool
  | .done _ => true
  | _ => false

/-- The whole system: the orchestrator core plus the `decode()` calls
made so far, in call order. -/
structure Sys where
  core : Core
  tasks : List Phase
deriving DecidableEq, Repr

/-- A freshly constructed `H264Decoder` in front of a fresh engine. -/
def Sys.init : Sys :=
  { core :=
      { engine := EngineState.unconfigured
        engineGen := 0
        engineResets := 0
        naluStreamInfo := none
        videoDecoderConfig := none
        hasKeyframe := false
        decoding := none
        pendingFrame := none
        timestamp := 0
        nextPromise := 0
        timers := []
        handlers := []
        resolved := []
        submissions := []
        closedFrames := []
        log := [] }
    tasks := [] }

/-- The self-healing entry check of `decode()`: a closed engine is
replaced by a fresh instance with a non-fatal notice. -/
def healCore (c : Core) : Core :=
  if c.engine = EngineState.closed then
    { c with engine := EngineState.unconfigured, engineGen := c.engineGen + 1,
             log := c.log ++ [Note.warnClosed] }
  else c

/-- `_getNaluStreamInfo`: the cached Stream Format Descriptor, or the
classification of this chunk. -/
def streamInfoOf (c : Core) (data : List Nat) : Option NaluStreamInfo :=
  match c.naluStreamInfo with
  | some i => some i
  | none => identifyNaluStreamInfo data

/-- `_getAnnexBFrame` as a pure projection: packet data converted to
Annex B, Annex B data unchanged, `undefined` when no descriptor can be
obtained. -/
def annexBOf (c : Core) (data : List Nat) : Option (List Nat) :=
  match streamInfoOf c data with
  | none => none
  | some i =>
    match i.kind with
    | NaluKind.packet => some (convertToAnnexB i.boxSize (data.length + 1) data)
    | NaluKind.annexB => some data
    | NaluKind.unknown => none

/-- How one `decode()` body ends: an early return with its result, or a
suspension on the promise it created after submitting to the engine. -/
inductive BodyOutcome
  | finished (res : Option Nat)
  | suspended (p : Nat)
deriving DecidableEq, Repr

/-- The synchronous body of `decode()` past the entry guard: self-heal a
closed engine, normalize to Annex B (caching the descriptor), configure
an unconfigured engine from the cached or freshly derived config, bail
out when not configured, apply the keyframe gate, and otherwise arm the
30 ms timer, register the `once("frame")` listener, submit the chunk
with the internal `#timestamp++` and suspend on the new promise. -/
def runBody (c0 : Core) (data : List Nat) (tsMicros : Nat) : Core × BodyOutcome :=
  let c := healCore c0
  match annexBOf c data with
  | none => ({ c with log := c.log ++ [Note.errAnnexB] }, BodyOutcome.finished none)
  | some ab =>
    let c := { c with naluStreamInfo := streamInfoOf c data }
    let c :=
      if c.engine = EngineState.unconfigured then
        match deriveConfig c.videoDecoderConfig ab with
        | some cfg =>
          { c with videoDecoderConfig := some cfg, engine := EngineState.configured,
                   log := c.log ++ [Note.debugConfiguring] }
        | none => c
      else c
    if c.engine ≠ EngineState.configured then
      ({ c with log := c.log ++ [Note.warnNotConfigured] }, BodyOutcome.finished none)
    else
      let key := isKeyFrame ab
      if c.hasKeyframe = false ∧ key = false then
        ({ c with log := c.log ++ [Note.debugSkipNonKey] }, BodyOutcome.finished none)
      else
        let c := { c with hasKeyframe := true }
        let p := c.nextPromise
        ({ c with
            nextPromise := p + 1
            timers := p :: c.timers
            handlers := c.handlers ++ [p]
            submissions := c.submissions ++ [{ key := key, data := ab, sentTimestamp := c.timestamp }]
            timestamp := c.timestamp + 1
            decoding := some p },
          BodyOutcome.suspended p)

/-- Is this parked call woken by the promises settled so far? -/
def runnable (c : Core) : Phase → Bool
  | Phase.guardWait p _ _ => p ∈ c.resolved
  | Phase.bodyWait p => p ∈ c.resolved
  | Phase.done _ => false

/-- The phase a call enters after its body ran: returned on an early
return, suspended on its own promise after a submission. -/
def outcomePhase : BodyOutcome → Phase
  | BodyOutcome.finished res => Phase.done res
  | BodyOutcome.suspended p => Phase.bodyWait p

/-- Resume one call: a guard-parked call runs the body; a call suspended
on its own promise performs the source's return sequence — clear
`#decoding`, take `#pendingFrame`, clear it and return it. -/
def runTask (c : Core) : Phase → Core × Phase
  | Phase.guardWait _ data tsMicros =>
    ((runBody c data tsMicros).1, outcomePhase (runBody c data tsMicros).2)
  | Phase.bodyWait _ =>
    ({ c with decoding := none, pendingFrame := none }, Phase.done c.pendingFrame)
  | Phase.done r => (c, Phase.done r)

/-- One pass of the microtask queue: resume every runnable call in call
order, each running synchronously to its next suspension point. Calls
woken in the same pass see the state left by the earlier ones; promises
created during the pass are unresolved, so a single ordered pass
suffices. -/
def wakePass (c : Core) : List Phase → Core × List Phase
  | [] => (c, [])
  | t :: ts =>
    if runnable c t then
      ((wakePass (runTask c t).1 ts).1, (runTask c t).2 :: (wakePass (runTask c t).1 ts).2)
    else
      ((wakePass c ts).1, t :: (wakePass c ts).2)

/-- Settle promise `p` if it is still pending. -/
def resolveP (c : Core) (p : Nat) : Core :=
  if p ∈ c.resolved then c else { c with resolved := p :: c.resolved }

/-- One `once("frame")` listener firing with frame `f`: log, clear its
own timer, close the held pending frame if any, store `f` in its place
and settle its promise. -/
def fireOne (f : Nat) (c : Core) (h : Nat) : Core :=
  let c1 := { c with timers := c.timers.erase h, log := c.log ++ [Note.debugDecoded] }
  let c2 :=
    match c1.pendingFrame with
    | some old => { c1 with closedFrames := c1.closedFrames ++ [old], pendingFrame := some f }
    | none => { c1 with pendingFrame := some f }
  resolveP c2 h

/-- The `frame` event for frame `f`: every currently registered
`once("frame")` listener fires in registration order (each at most once,
all with the same frame), after which none remain registered. -/
def fireHandlers (c : Core) (f : Nat) : Core :=
  let c' := c.handlers.foldl (fireOne f) c
  { c' with handlers := [] }

/-- The events of the asynchronous environment: a `decode(data, ts)`
call, the 30 ms timer of promise `p` firing, the engine delivering
decoded frame `f` through the output callback, and the synchronous
`resetForSeek()` / `close()` calls plus an unexpected engine shutdown. -/
inductive Ev
  | call (data : List Nat) (tsMicros : Nat)
  | timerFire (p : Nat)
  | frame (f : Nat)
  | seek
  | closeCall
  | crash
deriving DecidableEq, Repr

/-- One event. A call runs immediately when no decode is in flight and
otherwise parks at the entry guard; a timer firing warns and settles its
promise; a frame event fires the listeners and then the woken calls run
in order; `resetForSeek()` only resets the engine (which retains its
configuration per the engine contract); `close()` closes the engine and
clears both caches (and nothing else); a crash closes the engine. -/
def step (s : Sys) : Ev → Sys
  | Ev.call data tsMicros =>
    match s.core.decoding with
    | some p => { s with tasks := s.tasks ++ [Phase.guardWait p data tsMicros] }
    | none =>
      { core := (runBody s.core data tsMicros).1,
        tasks := s.tasks ++ [outcomePhase (runBody s.core data tsMicros).2] }
  | Ev.timerFire p =>
    if p ∈ s.core.timers then
      let c := resolveP
        { s.core with timers := s.core.timers.erase p, log := s.core.log ++ [Note.warnTimeout] } p
      { core := (wakePass c s.tasks).1, tasks := (wakePass c s.tasks).2 }
    else s
  | Ev.frame f =>
    let c := fireHandlers s.core f
    { core := (wakePass c s.tasks).1, tasks := (wakePass c s.tasks).2 }
  | Ev.seek => { s with core := { s.core with engineResets := s.core.engineResets + 1 } }
  | Ev.closeCall =>
    { s with core :=
        { s.core with engine := EngineState.closed, naluStreamInfo := none,
                      videoDecoderConfig := none } }
  | Ev.crash => { s with core := { s.core with engine := EngineState.closed } }

/-- Run an event schedule from a state. -/
def run (s : Sys) (evs : List Ev) : Sys :=
  evs.foldl step s

/-- Calls whose submission promise is still unsettled — the decodes in
flight at this instant. -/
def inFlightCount (s : Sys) : Nat :=
  (s.tasks.filter fun t =>
    match t with
    | Phase.bodyWait p => decide (p ∉ s.core.resolved)
    | _ => false).length

/-! ## Concrete bitstream chunks used in the scenarios -/

/-- A parseable baseline SPS NAL unit: profile 66, level 30, 320×240. -/
def spsNalu : List Nat := [103, 66, 0, 30, 248, 40, 63, 64]

/-- Annex B chunk with an SPS and an IDR slice — a `Key` chunk that can
also configure the decoder. -/
def spsKeyChunk : List Nat := [0, 0, 0, 1] ++ spsNalu ++ [0, 0, 0, 1, 101, 170]

/-- Annex B chunk with one non-IDR slice (type 1) — a `Delta` chunk. -/
def deltaChunk : List Nat := [0, 0, 0, 1, 65, 170]

/-- Annex B chunk with one IDR slice (type 5) — a `Key` chunk. -/
def keyChunk : List Nat := [0, 0, 0, 1, 101, 170]

/-- Annex B chunk with only an SPS — a `Delta` chunk (no IDR unit) that
can configure the decoder. -/
def spsOnlyChunk : List Nat := [0, 0, 0, 1] ++ spsNalu

/-- Annex B chunk whose first SPS unit is truncated (unparseable) and
whose second SPS unit parses. -/
def badSpsChunk : List Nat := [0, 0, 0, 1, 103] ++ [0, 0, 0, 1] ++ spsNalu

/-! ## Shared lemmas about the body of `decode()` -/

theorem healCore_naluStreamInfo (c : Core) : (healCore c).naluStreamInfo = c.naluStreamInfo := by
  unfold healCore; split <;> rfl

theorem healCore_hasKeyframe (c : Core) : (healCore c).hasKeyframe = c.hasKeyframe := by
  unfold healCore; split <;> rfl

theorem healCore_submissions (c : Core) : (healCore c).submissions = c.submissions := by
  unfold healCore; split <;> rfl

theorem healCore_videoDecoderConfig (c : Core) :
    (healCore c).videoDecoderConfig = c.videoDecoderConfig := by
  unfold healCore; split <;> rfl

theorem healCore_timestamp (c : Core) : (healCore c).timestamp = c.timestamp := by
  unfold healCore; split <;> rfl

theorem healCore_engine_ne_closed (c : Core) : (healCore c).engine ≠ EngineState.closed := by
  unfold healCore; split
  · simp
  · next h => simpa using h

theorem streamInfoOf_heal (c : Core) (data : List Nat) :
    streamInfoOf (healCore c) data = streamInfoOf c data := by
  unfold streamInfoOf; rw [healCore_naluStreamInfo]

theorem annexBOf_heal (c : Core) (data : List Nat) :
    annexBOf (healCore c) data = annexBOf c data := by
  unfold annexBOf; rw [streamInfoOf_heal]

/-- The keyframe gate of `decode()`: with the gate closed and no IDR in
the normalized chunk, the body finishes with no frame, performs no
submission and leaves the gate closed. -/
theorem runBody_gate_skip (c : Core) (data : List Nat) (ts : Nat)
    (hk : c.hasKeyframe = false)
    (hab : ∀ ab, annexBOf c data = some ab → isKeyFrame ab = false) :
    (runBody c data ts).2 = BodyOutcome.finished none ∧
    (runBody c data ts).1.hasKeyframe = false ∧
    (runBody c data ts).1.submissions = c.submissions := by
  unfold runBody
  cases h : annexBOf (healCore c) data with
  | none =>
    simp only [h]
    simp [healCore_hasKeyframe, healCore_submissions, hk]
  | some ab =>
    have hkey : isKeyFrame ab = false := hab ab ((annexBOf_heal c data) ▸ h)
    simp only [h]
    cases hcfg : deriveConfig (healCore c).videoDecoderConfig ab <;>
      simp only [hcfg] <;>
      (repeat' split) <;>
      simp_all [healCore_hasKeyframe, healCore_submissions]

/-- The keyframe gate only opens on a chunk whose normalized form
contains an IDR unit. -/
theorem runBody_gate_opens_only_on_key (c : Core) (data : List Nat) (ts : Nat)
    (hk : c.hasKeyframe = false)
    (hopen : (runBody c data ts).1.hasKeyframe = true) :
    ∃ ab, annexBOf c data = some ab ∧ isKeyFrame ab = true := by
  by_cases hab : ∀ ab, annexBOf c data = some ab → isKeyFrame ab = false
  · have := (runBody_gate_skip c data ts hk hab).2.1
    rw [hopen] at this
    exact absurd this (by simp)
  · push_neg at hab
    obtain ⟨ab, h1, h2⟩ := hab
    exact ⟨ab, h1, by simpa using h2⟩

/-! ## C1 -/

set_option maxHeartbeats 2000000 in
set_option maxRecDepth 4000 in
/-- C1. Keyframe gating: while `hasSeenKeyframe` is false, a `decode()`
call (made with no decode in flight) whose chunk contains no IDR (type
5) NAL unit returns no frame, submits nothing to the engine and leaves
the gate closed; the gate opens only on a chunk containing an IDR unit;
and on a configurable stream the call sequence `[Delta, Delta, Key,
Delta]` returns no frame for the first two calls and a frame for the
third and fourth. -/
theorem decode_keyframe_gating :
    (∀ s data ts, s.core.decoding = none → s.core.hasKeyframe = false →
      (∀ ab, annexBOf s.core data = some ab → isKeyFrame ab = false) →
      (step s (Ev.call data ts)).tasks = s.tasks ++ [Phase.done none] ∧
      (step s (Ev.call data ts)).core.hasKeyframe = false ∧
      (step s (Ev.call data ts)).core.submissions = s.core.submissions) ∧
    (∀ s data ts, s.core.decoding = none → s.core.hasKeyframe = false →
      (step s (Ev.call data ts)).core.hasKeyframe = true →
      ∃ ab, annexBOf s.core data = some ab ∧ isKeyFrame ab = true) ∧
    (run Sys.init [Ev.call spsOnlyChunk 0, Ev.call deltaChunk 1, Ev.call keyChunk 2,
      Ev.frame 100, Ev.call deltaChunk 3, Ev.frame 101]).tasks =
      [Phase.done none, Phase.done none, Phase.done (some 100), Phase.done (some 101)] := by
  refine ⟨?_, ?_, by decide⟩
  · intro s data ts hdec hk hab
    obtain ⟨h1, h2, h3⟩ := runBody_gate_skip s.core data ts hk hab
    simp only [step, hdec]
    rw [h1]
    exact ⟨rfl, h2, h3⟩
  · intro s data ts hdec hk hopen
    refine runBody_gate_opens_only_on_key s.core data ts hk ?_
    simpa only [step, hdec] using hopen

/-- C1 witness: the gating theorem applied to the freshly constructed
orchestrator and a concrete `Delta` chunk. -/
theorem decode_keyframe_gating_witness :
    (step Sys.init (Ev.call deltaChunk 0)).tasks = Sys.init.tasks ++ [Phase.done none] ∧
    (step Sys.init (Ev.call deltaChunk 0)).core.hasKeyframe = false ∧
    (step Sys.init (Ev.call deltaChunk 0)).core.submissions = Sys.init.core.submissions :=
  decode_keyframe_gating.1 Sys.init deltaChunk 0 rfl rfl (by decide)

/-! ## C2 -/

/-- C2 (evaluation of the code): `resetForSeek()` is only
`this.#decoder.reset()` — it leaves every orchestrator field, including
`hasSeenKeyframe`, untouched (the caches indeed survive, as the claim
says), so after decoding a key chunk, calling `resetForSeek()` and then
decoding a `Delta` chunk, the gate is still open and the delta chunk is
decoded to a frame instead of being skipped. -/
theorem resetForSeek_keeps_keyframe_gate :
    (∀ s, (step s Ev.seek).core.hasKeyframe = s.core.hasKeyframe ∧
      (step s Ev.seek).core.naluStreamInfo = s.core.naluStreamInfo ∧
      (step s Ev.seek).core.videoDecoderConfig = s.core.videoDecoderConfig) ∧
    (run Sys.init [Ev.call spsKeyChunk 0, Ev.frame 100, Ev.seek]).core.hasKeyframe = true ∧
    (run Sys.init [Ev.call spsKeyChunk 0, Ev.frame 100, Ev.seek, Ev.call deltaChunk 1,
      Ev.frame 101]).tasks = [Phase.done (some 100), Phase.done (some 101)] :=
  ⟨fun s => ⟨rfl, rfl, rfl⟩, by decide, by decide⟩

/-! ## C5 -/

/-- C5 (evaluation of the code): `close()` closes the engine and clears
both caches, but does not touch the pending-frame slot: when a late
frame was stored after a timed-out call, `close()` leaves it stored and
never closed, contradicting the claimed (and doc-commented) clearing of
pending frames. -/
theorem close_leaves_pending_frame :
    (∀ s, (step s Ev.closeCall).core.engine = EngineState.closed ∧
      (step s Ev.closeCall).core.naluStreamInfo = none ∧
      (step s Ev.closeCall).core.videoDecoderConfig = none ∧
      (step s Ev.closeCall).core.pendingFrame = s.core.pendingFrame ∧
      (step s Ev.closeCall).core.closedFrames = s.core.closedFrames) ∧
    (run Sys.init [Ev.call spsKeyChunk 0, Ev.timerFire 0, Ev.frame 100,
      Ev.closeCall]).core.pendingFrame = some 100 ∧
    (run Sys.init [Ev.call spsKeyChunk 0, Ev.timerFire 0, Ev.frame 100,
      Ev.closeCall]).core.closedFrames = [] :=
  ⟨fun s => ⟨rfl, rfl, rfl, rfl, rfl⟩, by decide, by decide⟩

/-! ## C10 -/

/-- C10 counterexample: a `decode()` call can return while the
pending-frame slot is still occupied. After a timed-out call whose late
frame was stored, `close()`, and then a call that early-returns (the
closed engine is healed but the chunk carries no SPS for the now-empty
config cache), the call returns no frame while `#pendingFrame` still
holds the stale frame. -/
theorem decode_return_leaves_stale_frame :
    (run Sys.init [Ev.call spsKeyChunk 0, Ev.timerFire 0, Ev.frame 100, Ev.closeCall,
      Ev.call deltaChunk 1]).tasks = [Phase.done none, Phase.done none] ∧
    (run Sys.init [Ev.call spsKeyChunk 0, Ev.timerFire 0, Ev.frame 100, Ev.closeCall,
      Ev.call deltaChunk 1]).core.pendingFrame = some 100 := by
  constructor <;> decide

/-- C10 amended: a call that completes through the submission path does
clear both the in-flight marker and the pending-frame slot on return —
the return sequence is exactly: clear `#decoding`, transfer
`#pendingFrame` to the caller, clear it — and a call decoded to a frame
leaves neither a frame nor a pending promise behind. -/
theorem decode_submission_path_clears_state :
    (∀ c p, runTask c (Phase.bodyWait p) =
      ({ c with decoding := none, pendingFrame := none }, Phase.done c.pendingFrame)) ∧
    (run Sys.init [Ev.call spsKeyChunk 0, Ev.frame 100]).core.pendingFrame = none ∧
    (run Sys.init [Ev.call spsKeyChunk 0, Ev.frame 100]).core.decoding = none ∧
    (run Sys.init [Ev.call spsKeyChunk 0, Ev.frame 100]).tasks = [Phase.done (some 100)] :=
  ⟨fun c p => rfl, by decide, by decide, by decide⟩

/-! ## C3 -/

/-- C3 counterexample: three `decode()` calls arrive while the first's
submission is pending; when that submission completes, both queued
calls run their bodies in the same wake pass — the entry guard is a
one-shot check, so the third call submits while the second call's
submission is still pending, leaving two decodes in flight at once. -/
theorem decode_single_flight_counterexample :
    inFlightCount (run Sys.init [Ev.call spsKeyChunk 0, Ev.call deltaChunk 1,
      Ev.call deltaChunk 2, Ev.frame 100]) = 2 ∧
    (run Sys.init [Ev.call spsKeyChunk 0, Ev.call deltaChunk 1, Ev.call deltaChunk 2,
      Ev.frame 100]).core.submissions.length = 3 ∧
    (run Sys.init [Ev.call spsKeyChunk 0, Ev.call deltaChunk 1, Ev.call deltaChunk 2,
      Ev.frame 100]).tasks =
      [Phase.done (some 100), Phase.bodyWait 1, Phase.bodyWait 2] := by
  refine ⟨by decide, by decide, by decide⟩

/-- C3 amended: a `decode()` call made while a previous submission is
in flight mutates nothing and submits nothing at call time — it is
parked at the entry guard awaiting the pending promise — and with at
most two overlapping calls at most one decode is in flight at every
instant and submissions happen in call order; with three simultaneously
pending calls, however, two submissions can be in flight at once. -/
theorem decode_single_flight_two_calls :
    (∀ s data ts p, s.core.decoding = some p →
      step s (Ev.call data ts) = { s with tasks := s.tasks ++ [Phase.guardWait p data ts] }) ∧
    ((List.range 5).map fun n => inFlightCount (run Sys.init
      ([Ev.call spsKeyChunk 0, Ev.call deltaChunk 1, Ev.frame 100, Ev.frame 101].take n))) =
      [0, 1, 1, 1, 0] ∧
    (run Sys.init [Ev.call spsKeyChunk 0, Ev.call deltaChunk 1, Ev.frame 100,
      Ev.frame 101]).tasks = [Phase.done (some 100), Phase.done (some 101)] ∧
    ((run Sys.init [Ev.call spsKeyChunk 0, Ev.call deltaChunk 1, Ev.frame 100,
      Ev.frame 101]).core.submissions.map Submission.key) = [true, false] := by
  refine ⟨?_, by decide, by decide, by decide⟩
  intro s data ts p h
  simp only [step, h]

/-- C3 witness: the guard-parking equation applied to the state in
which the first call's submission is pending. -/
theorem decode_single_flight_two_calls_witness :
    step (run Sys.init [Ev.call spsKeyChunk 0]) (Ev.call deltaChunk 5) =
      { run Sys.init [Ev.call spsKeyChunk 0] with
        tasks := (run Sys.init [Ev.call spsKeyChunk 0]).tasks ++
          [Phase.guardWait 0 deltaChunk 5] } :=
  decode_single_flight_two_calls.1 (run Sys.init [Ev.call spsKeyChunk 0]) deltaChunk 5 0
    (by decide)

/-! ## Preservation of a cached Decoder Configuration -/

theorem resolveP_videoDecoderConfig (c : Core) (p : Nat) :
    (resolveP c p).videoDecoderConfig = c.videoDecoderConfig := by
  unfold resolveP; split <;> rfl

theorem fireOne_videoDecoderConfig (f : Nat) (c : Core) (h : Nat) :
    (fireOne f c h).videoDecoderConfig = c.videoDecoderConfig := by
  unfold fireOne
  rw [resolveP_videoDecoderConfig]
  split <;> rfl

theorem foldl_fireOne_videoDecoderConfig (f : Nat) : ∀ (hs : List Nat) (c : Core),
    (hs.foldl (fireOne f) c).videoDecoderConfig = c.videoDecoderConfig
  | [], c => rfl
  | h :: hs, c => by
    rw [List.foldl_cons, foldl_fireOne_videoDecoderConfig f hs (fireOne f c h),
      fireOne_videoDecoderConfig]

theorem fireHandlers_videoDecoderConfig (c : Core) (f : Nat) :
    (fireHandlers c f).videoDecoderConfig = c.videoDecoderConfig := by
  unfold fireHandlers
  exact foldl_fireOne_videoDecoderConfig f c.handlers c

theorem runBody_config_some (c : Core) (data : List Nat) (ts : Nat) (cfg : VideoDecoderConfig)
    (h : c.videoDecoderConfig = some cfg) :
    (runBody c data ts).1.videoDecoderConfig = some cfg := by
  have hh : (healCore c).videoDecoderConfig = some cfg := by
    rw [healCore_videoDecoderConfig]; exact h
  unfold runBody
  cases hab : annexBOf (healCore c) data with
  | none => simp only [hab]; simpa using hh
  | some ab =>
    have hd : deriveConfig (healCore c).videoDecoderConfig ab = some cfg := by
      rw [hh]; rfl
    simp only [hab, hd]
    (repeat' split) <;> simp_all

theorem runTask_config_some (c : Core) (t : Phase) (cfg : VideoDecoderConfig)
    (h : c.videoDecoderConfig = some cfg) :
    (runTask c t).1.videoDecoderConfig = some cfg := by
  cases t with
  | guardWait p data ts => exact runBody_config_some c data ts cfg h
  | bodyWait p => simpa using h
  | done r => simpa using h

theorem wakePass_config_some : ∀ (ts : List Phase) (c : Core) (cfg : VideoDecoderConfig),
    c.videoDecoderConfig = some cfg → (wakePass c ts).1.videoDecoderConfig = some cfg
  | [], _, _, h => h
  | t :: ts, c, cfg, h => by
    unfold wakePass
    split
    · exact wakePass_config_some ts (runTask c t).1 cfg (runTask_config_some c t cfg h)
    · exact wakePass_config_some ts c cfg h

theorem step_config_some (s : Sys) (ev : Ev) (cfg : VideoDecoderConfig)
    (hne : ev ≠ Ev.closeCall) (h : s.core.videoDecoderConfig = some cfg) :
    (step s ev).core.videoDecoderConfig = some cfg := by
  cases ev with
  | call data ts =>
    simp only [step]
    cases hd : s.core.decoding with
    | some p => simpa using h
    | none => exact runBody_config_some s.core data ts cfg h
  | timerFire p =>
    simp only [step]
    split
    · exact wakePass_config_some s.tasks _ cfg (by rw [resolveP_videoDecoderConfig]; exact h)
    · simpa using h
  | frame f =>
    simp only [step]
    exact wakePass_config_some s.tasks _ cfg (by rw [fireHandlers_videoDecoderConfig]; exact h)
  | seek => simpa using h
  | closeCall => exact absurd rfl hne
  | crash => simpa using h

/-! ## C6 -/

/-- The 320×240 baseline SPS of the reference chunk. -/
def sps320 : SPSData :=
  { profileIdc := 66, constraintByte := 0, levelIdc := 30, picWidth := 320, picHeight := 240 }

/-- The decoder configuration built from `sps320`. -/
def cfg320 : VideoDecoderConfig := mkConfig sps320

/-- C6 counterexample: the configuration is not derived from the first
SPS that parses successfully — the scan gives up at the first SPS unit
even when a later SPS in the same chunk parses. `badSpsChunk` holds a
truncated SPS followed by a parseable one; the scan derives nothing and
the orchestrator stays unconfigured after decoding it. -/
theorem decoder_config_first_sps_counterexample :
    deriveConfig none badSpsChunk = none ∧
    (splitNalus badSpsChunk).get? 0 = some [103] ∧
    naluType [103] = some 7 ∧
    parseSPS [103] = none ∧
    (splitNalus badSpsChunk).get? 1 = some spsNalu ∧
    naluType spsNalu = some 7 ∧
    (parseSPS spsNalu).map mkConfig = some cfg320 ∧
    (run Sys.init [Ev.call badSpsChunk 0]).core.videoDecoderConfig = none := by
  refine ⟨by decide, by decide, by decide, by decide, by decide, by decide, by decide, by decide⟩

/-- C6 amended: once the configuration cache is set, every later
derivation returns the cached value unchanged, and the cache survives
every orchestrator event other than `close()`; while unset, the scan
derives the configuration from the first SPS NAL unit encountered in
the chunk — succeeding only if that first SPS parses (a failing first
SPS yields no configuration for this chunk, to be retried on later
chunks). -/
theorem decoder_config_once :
    (∀ cfg ab, deriveConfig (some cfg) ab = some cfg) ∧
    (∀ units : List (List Nat), scanConfig units =
      (units.find? fun n => naluType n == some 7).bind fun n => (parseSPS n).map mkConfig) ∧
    (∀ s ev cfg, ev ≠ Ev.closeCall → s.core.videoDecoderConfig = some cfg →
      (step s ev).core.videoDecoderConfig = some cfg) := by
  refine ⟨fun cfg ab => rfl, ?_, fun s ev cfg => step_config_some s ev cfg⟩
  intro units
  induction units with
  | nil => rfl
  | cons n rest ih =>
    by_cases h : naluType n = some 7
    · simp only [scanConfig, List.find?, h, if_pos]
      simp only [beq_self_eq_true]
      cases hp : parseSPS n <;> simp [hp]
    · have hb : (naluType n == some 7) = false := by simpa using h
      simp only [scanConfig, List.find?, hb, if_neg h, ih]

/-- C6 witness: the amended theorem applied to the cached configuration
`cfg320` and to the configured state surviving a `resetForSeek()`. -/
theorem decoder_config_once_witness :
    deriveConfig (some cfg320) deltaChunk = some cfg320 ∧
    (step (run Sys.init [Ev.call spsOnlyChunk 0]) Ev.seek).core.videoDecoderConfig =
      some cfg320 :=
  ⟨decoder_config_once.1 cfg320 deltaChunk,
    decoder_config_once.2.2 (run Sys.init [Ev.call spsOnlyChunk 0]) Ev.seek cfg320
      (by decide) (by decide)⟩

/-! ## C4 -/

theorem resolveP_pendingFrame (c : Core) (p : Nat) :
    (resolveP c p).pendingFrame = c.pendingFrame := by
  unfold resolveP; split <;> rfl

theorem resolveP_closedFrames (c : Core) (p : Nat) :
    (resolveP c p).closedFrames = c.closedFrames := by
  unfold resolveP; split <;> rfl

/-- A listener firing while a frame is held: the held frame is closed
and the arriving frame stored in its place. -/
theorem fireOne_stores (f : Nat) (c : Core) (hid old : Nat) (h : c.pendingFrame = some old) :
    (fireOne f c hid).pendingFrame = some f ∧
    (fireOne f c hid).closedFrames = c.closedFrames ++ [old] := by
  unfold fireOne
  rw [resolveP_pendingFrame, resolveP_closedFrames]
  simp [h]

/-- A listener firing with no frame held: the arriving frame is stored
and nothing is closed. -/
theorem fireOne_stores_none (f : Nat) (c : Core) (hid : Nat) (h : c.pendingFrame = none) :
    (fireOne f c hid).pendingFrame = some f ∧
    (fireOne f c hid).closedFrames = c.closedFrames := by
  unfold fireOne
  rw [resolveP_pendingFrame, resolveP_closedFrames]
  simp [h]

theorem foldl_fireOne_keeps (f : Nat) : ∀ (hs : List Nat) (c : Core),
    c.pendingFrame = some f → (hs.foldl (fireOne f) c).pendingFrame = some f
  | [], _, h => h
  | hd :: hs, c, h => by
    rw [List.foldl_cons]
    exact foldl_fireOne_keeps f hs (fireOne f c hd) (fireOne_stores f c hd f h).1

theorem foldl_fireOne_mem (f x : Nat) : ∀ (hs : List Nat) (c : Core),
    x ∈ c.closedFrames → x ∈ (hs.foldl (fireOne f) c).closedFrames
  | [], _, h => h
  | hd :: hs, c, h => by
    rw [List.foldl_cons]
    refine foldl_fireOne_mem f x hs (fireOne f c hd) ?_
    cases hp : c.pendingFrame with
    | none => rw [(fireOne_stores_none f c hd hp).2]; exact h
    | some old =>
      rw [(fireOne_stores f c hd old hp).2]
      exact List.mem_append_left _ h

/-- C4. At most one pending frame: in every reachable state the
orchestrator holds at most one decoded frame (the slot is a single
optional field); and whenever a frame arrives while a previously
stored, still-unclaimed frame is held, the held frame is closed and the
new one stored in its place — per firing listener, and for the whole
`frame` event whenever at least one listener is registered. -/
theorem pending_frame_discipline :
    (∀ evs, ((run Sys.init evs).core.pendingFrame).toList.length ≤ 1) ∧
    (∀ c f hid old, c.pendingFrame = some old →
      (fireOne f c hid).pendingFrame = some f ∧
      (fireOne f c hid).closedFrames = c.closedFrames ++ [old]) ∧
    (∀ c f old, c.pendingFrame = some old → c.handlers ≠ [] →
      (fireHandlers c f).pendingFrame = some f ∧ old ∈ (fireHandlers c f).closedFrames) := by
  refine ⟨?_, fun c f hid old h => fireOne_stores f c hid old h, ?_⟩
  · intro evs
    cases h : (run Sys.init evs).core.pendingFrame <;> simp [h]
  · intro c f old h hh
    cases hhs : c.handlers with
    | nil => exact absurd hhs hh
    | cons hd tl =>
      unfold fireHandlers
      rw [hhs, List.foldl_cons]
      obtain ⟨h1, h2⟩ := fireOne_stores f c hd old h
      constructor
      · simpa using foldl_fireOne_keeps f tl (fireOne f c hd) h1
      · show old ∈ (tl.foldl (fireOne f) (fireOne f c hd)).closedFrames
        refine foldl_fireOne_mem f old tl (fireOne f c hd) ?_
        rw [h2]
        exact List.mem_append_right _ (by simp)

/-- C4 witness: the discipline applied at the state in which a late
frame 100 is held and one listener is registered. -/
theorem pending_frame_discipline_witness :
    (fireOne 55 (run Sys.init [Ev.call spsKeyChunk 0, Ev.timerFire 0, Ev.frame 100,
      Ev.call deltaChunk 1]).core 9).pendingFrame = some 55 ∧
    (fireHandlers (run Sys.init [Ev.call spsKeyChunk 0, Ev.timerFire 0, Ev.frame 100,
      Ev.call deltaChunk 1]).core 55).pendingFrame = some 55 ∧
    100 ∈ (fireHandlers (run Sys.init [Ev.call spsKeyChunk 0, Ev.timerFire 0, Ev.frame 100,
      Ev.call deltaChunk 1]).core 55).closedFrames :=
  ⟨(pending_frame_discipline.2.1 (run Sys.init [Ev.call spsKeyChunk 0, Ev.timerFire 0,
      Ev.frame 100, Ev.call deltaChunk 1]).core 55 9 100 (by decide)).1,
    (pending_frame_discipline.2.2 (run Sys.init [Ev.call spsKeyChunk 0, Ev.timerFire 0,
      Ev.frame 100, Ev.call deltaChunk 1]).core 55 100 (by decide) (by decide)).1,
    (pending_frame_discipline.2.2 (run Sys.init [Ev.call spsKeyChunk 0, Ev.timerFire 0,
      Ev.frame 100, Ev.call deltaChunk 1]).core 55 100 (by decide) (by decide)).2⟩

/-! ## C7 -/

theorem healCore_engineGen_of_closed (c : Core) (h : c.engine = EngineState.closed) :
    (healCore c).engineGen = c.engineGen + 1 := by
  unfold healCore; rw [if_pos h]

theorem healCore_warn_of_closed (c : Core) (h : c.engine = EngineState.closed) :
    Note.warnClosed ∈ (healCore c).log := by
  unfold healCore; rw [if_pos h]; simp

theorem runBody_engineGen (c : Core) (data : List Nat) (ts : Nat) :
    (runBody c data ts).1.engineGen = (healCore c).engineGen := by
  unfold runBody
  cases hab : annexBOf (healCore c) data <;> simp only [hab] <;> (repeat' split) <;> rfl

theorem runBody_log_mem (c : Core) (data : List Nat) (ts : Nat) (x : Note)
    (h : x ∈ (healCore c).log) :
    x ∈ (runBody c data ts).1.log := by
  unfold runBody
  cases hab : annexBOf (healCore c) data <;> simp only [hab] <;> (repeat' split) <;>
    simp_all [List.mem_append]

theorem runBody_engine_ne_closed (c : Core) (data : List Nat) (ts : Nat) :
    (runBody c data ts).1.engine ≠ EngineState.closed := by
  have hnc := healCore_engine_ne_closed c
  unfold runBody
  cases hab : annexBOf (healCore c) data <;> simp only [hab] <;> (repeat' split) <;>
    simp_all

/-- C7. Self-healing: a `decode()` call made (with no decode in flight)
while the engine is closed acquires a fresh engine instance, emits the
non-fatal notice, and proceeds — the call never leaves the engine
closed; concretely, after `close()` the next `decode()` of a
configurable key chunk recreates the engine and decodes a frame. -/
theorem decode_self_healing :
    (∀ s data ts, s.core.decoding = none → s.core.engine = EngineState.closed →
      (step s (Ev.call data ts)).core.engineGen = s.core.engineGen + 1 ∧
      Note.warnClosed ∈ (step s (Ev.call data ts)).core.log ∧
      (step s (Ev.call data ts)).core.engine ≠ EngineState.closed) ∧
    (run Sys.init [Ev.call spsKeyChunk 0, Ev.frame 100, Ev.closeCall, Ev.call spsKeyChunk 1,
      Ev.frame 101]).tasks = [Phase.done (some 100), Phase.done (some 101)] ∧
    (run Sys.init [Ev.call spsKeyChunk 0, Ev.frame 100, Ev.closeCall, Ev.call spsKeyChunk 1,
      Ev.frame 101]).core.engineGen = 1 ∧
    (run Sys.init [Ev.call spsKeyChunk 0, Ev.frame 100, Ev.closeCall, Ev.call spsKeyChunk 1,
      Ev.frame 101]).core.engine = EngineState.configured ∧
    Note.warnClosed ∈ (run Sys.init [Ev.call spsKeyChunk 0, Ev.frame 100, Ev.closeCall,
      Ev.call spsKeyChunk 1, Ev.frame 101]).core.log := by
  refine ⟨?_, by decide, by decide, by decide, by decide⟩
  intro s data ts hdec hcl
  simp only [step, hdec]
  exact ⟨by rw [runBody_engineGen, healCore_engineGen_of_closed s.core hcl],
    runBody_log_mem s.core data ts Note.warnClosed (healCore_warn_of_closed s.core hcl),
    runBody_engine_ne_closed s.core data ts⟩

/-- C7 witness: the healing theorem applied right after `close()`. -/
theorem decode_self_healing_witness :
    (step (run Sys.init [Ev.closeCall]) (Ev.call spsKeyChunk 3)).core.engineGen =
      (run Sys.init [Ev.closeCall]).core.engineGen + 1 ∧
    Note.warnClosed ∈ (step (run Sys.init [Ev.closeCall]) (Ev.call spsKeyChunk 3)).core.log ∧
    (step (run Sys.init [Ev.closeCall]) (Ev.call spsKeyChunk 3)).core.engine ≠
      EngineState.closed :=
  decode_self_healing.1 (run Sys.init [Ev.closeCall]) spsKeyChunk 3 (by decide) (by decide)

/-! ## C9 -/

/-- The submission-timestamp invariant: the internal counter equals the
number of submissions made so far, and the timestamps sent with the
submissions are exactly `0, 1, 2, …` in order. -/
def TsInv (c : Core) : Prop :=
  c.timestamp = c.submissions.length ∧
  c.submissions.map Submission.sentTimestamp = List.range c.submissions.length

theorem healCore_TsInv (c : Core) (h : TsInv c) : TsInv (healCore c) := by
  unfold healCore
  split
  · exact h
  · exact h

theorem runBody_TsInv (c : Core) (data : List Nat) (ts : Nat) (h : TsInv c) :
    TsInv (runBody c data ts).1 := by
  have hh := healCore_TsInv c h
  obtain ⟨h1, h2⟩ := hh
  unfold runBody
  cases hab : annexBOf (healCore c) data <;> simp only [hab] <;> (repeat' split) <;>
    refine ⟨?_, ?_⟩ <;>
    simp_all [TsInv, List.range_succ]

theorem runTask_TsInv (c : Core) (t : Phase) (h : TsInv c) : TsInv (runTask c t).1 := by
  cases t with
  | guardWait p data ts => exact runBody_TsInv c data ts h
  | bodyWait p => exact h
  | done r => exact h

theorem wakePass_TsInv : ∀ (ts : List Phase) (c : Core), TsInv c → TsInv (wakePass c ts).1
  | [], _, h => h
  | t :: ts, c, h => by
    unfold wakePass
    split
    · exact wakePass_TsInv ts (runTask c t).1 (runTask_TsInv c t h)
    · exact wakePass_TsInv ts c h

theorem resolveP_TsInv (c : Core) (p : Nat) (h : TsInv c) : TsInv (resolveP c p) := by
  unfold resolveP
  split
  · exact h
  · exact h

theorem fireOne_TsInv (f : Nat) (c : Core) (hid : Nat) (h : TsInv c) :
    TsInv (fireOne f c hid) := by
  unfold fireOne
  refine resolveP_TsInv _ hid ?_
  split <;> exact h

theorem foldl_fireOne_TsInv (f : Nat) : ∀ (hs : List Nat) (c : Core),
    TsInv c → TsInv (hs.foldl (fireOne f) c)
  | [], _, h => h
  | hd :: hs, c, h => by
    rw [List.foldl_cons]
    exact foldl_fireOne_TsInv f hs (fireOne f c hd) (fireOne_TsInv f c hd h)

theorem fireHandlers_TsInv (c : Core) (f : Nat) (h : TsInv c) : TsInv (fireHandlers c f) :=
  foldl_fireOne_TsInv f c.handlers c h

theorem step_TsInv (s : Sys) (ev : Ev) (h : TsInv s.core) : TsInv (step s ev).core := by
  cases ev with
  | call data ts =>
    simp only [step]
    cases hd : s.core.decoding with
    | some p => exact h
    | none => exact runBody_TsInv s.core data ts h
  | timerFire p =>
    simp only [step]
    split
    · exact wakePass_TsInv s.tasks _ (resolveP_TsInv _ p h)
    · exact h
  | frame f =>
    simp only [step]
    exact wakePass_TsInv s.tasks _ (fireHandlers_TsInv s.core f h)
  | seek => exact h
  | closeCall => exact h
  | crash => exact h

theorem run_TsInv : ∀ (evs : List Ev) (s : Sys), TsInv s.core → TsInv (run s evs).core
  | [], _, h => h
  | ev :: evs, s, h => run_TsInv evs (step s ev) (step_TsInv s ev h)

/-- C9. Internal timestamp monotonicity: over every event schedule, the
timestamps attached to the chunks submitted to the engine are exactly
`0, 1, 2, …` in submission order — hence strictly monotonically
increasing — and the body of `decode()` does not depend on the
caller-supplied timestamp argument at all (it is advisory only). -/
theorem internal_timestamps_monotonic :
    (∀ evs, (run Sys.init evs).core.submissions.map Submission.sentTimestamp =
        List.range (run Sys.init evs).core.submissions.length ∧
      List.Pairwise (· < ·)
        ((run Sys.init evs).core.submissions.map Submission.sentTimestamp)) ∧
    (∀ c data t1 t2, runBody c data t1 = runBody c data t2) := by
  refine ⟨?_, fun c data t1 t2 => rfl⟩
  intro evs
  have h := (run_TsInv evs Sys.init ⟨rfl, rfl⟩).2
  exact ⟨h, h ▸ List.pairwise_lt_range _⟩

/-! ## C8 -/

/-- The submit path of the body, characterized: on a configured engine
with the gate open and a cached Annex B descriptor, the body arms the
timer, registers the listener, submits the chunk with the internal
timestamp and suspends on the fresh promise. -/
theorem runBody_submit (c : Core) (data : List Nat) (ts : Nat)
    (he : c.engine = EngineState.configured)
    (hk : c.hasKeyframe = true)
    (hc : c.naluStreamInfo = some { kind := NaluKind.annexB, boxSize := 4 }) :
    runBody c data ts =
      ({ c with
          naluStreamInfo := some { kind := NaluKind.annexB, boxSize := 4 },
          hasKeyframe := true,
          nextPromise := c.nextPromise + 1,
          timers := c.nextPromise :: c.timers,
          handlers := c.handlers ++ [c.nextPromise],
          submissions := c.submissions ++
            [{ key := isKeyFrame data, data := data, sentTimestamp := c.timestamp }],
          timestamp := c.timestamp + 1,
          decoding := some c.nextPromise },
        BodyOutcome.suspended c.nextPromise) := by
  have hid : healCore c = c := by
    unfold healCore
    rw [if_neg (by rw [he]; simp)]
  have hsi : streamInfoOf c data = some { kind := NaluKind.annexB, boxSize := 4 } := by
    unfold streamInfoOf; rw [hc]
  have hab : annexBOf c data = some data := by
    unfold annexBOf; rw [hsi]
  unfold runBody
  rw [hid]
  simp [hab, hsi, he, hk]

theorem runnable_done_false (c : Core) (t : Phase) (h : t.isDone = true) :
    runnable c t = false := by
  cases t <;> simp_all [runnable, Phase.isDone]

/-- A wake pass over returned calls does nothing. -/
theorem wakePass_append_done (ts₁ : List Phase) (c : Core) (ts₂ : List Phase)
    (h : ∀ t ∈ ts₁, t.isDone = true) :
    wakePass c (ts₁ ++ ts₂) = ((wakePass c ts₂).1, ts₁ ++ (wakePass c ts₂).2) := by
  induction ts₁ with
  | nil => simp
  | cons t ts ih =>
    have hr : runnable c t = false := runnable_done_false c t (h t (by simp))
    have hstep : wakePass c (t :: (ts ++ ts₂)) =
        ((wakePass c (ts ++ ts₂)).1, t :: (wakePass c (ts ++ ts₂)).2) := by
      conv_lhs => unfold wakePass
      rw [if_neg (by simp [hr])]
    rw [List.cons_append, hstep, ih (fun x hx => h x (by simp [hx]))]
    simp

theorem resolveP_not_mem (c : Core) (p : Nat) (h : p ∉ c.resolved) :
    resolveP c p = { c with resolved := p :: c.resolved } := by
  unfold resolveP; rw [if_neg h]

/-- A `decode()` call on a quiescent configured orchestrator followed by
its 30 ms timer firing: the call submits, times out with the warning,
returns the previously held pending frame (none in normal operation),
clears the in-flight marker and the slot — and leaves the submission in
the engine log and its `once("frame")` listener registered. -/
theorem call_then_timeout_eq (s : Sys) (data : List Nat) (ts : Nat)
    (hdec : s.core.decoding = none)
    (he : s.core.engine = EngineState.configured)
    (hk : s.core.hasKeyframe = true)
    (hc : s.core.naluStreamInfo = some { kind := NaluKind.annexB, boxSize := 4 })
    (htm : s.core.timers = [])
    (hnr : s.core.nextPromise ∉ s.core.resolved)
    (hdone : ∀ t ∈ s.tasks, t.isDone = true) :
    run s [Ev.call data ts, Ev.timerFire s.core.nextPromise] =
      { core := { s.core with
          naluStreamInfo := some { kind := NaluKind.annexB, boxSize := 4 },
          hasKeyframe := true,
          nextPromise := s.core.nextPromise + 1,
          timers := [],
          handlers := s.core.handlers ++ [s.core.nextPromise],
          submissions := s.core.submissions ++
            [{ key := isKeyFrame data, data := data, sentTimestamp := s.core.timestamp }],
          timestamp := s.core.timestamp + 1,
          decoding := none,
          pendingFrame := none,
          resolved := s.core.nextPromise :: s.core.resolved,
          log := s.core.log ++ [Note.warnTimeout] },
        tasks := s.tasks ++ [Phase.done s.core.pendingFrame] } := by
  have hsub := runBody_submit s.core data ts he hk hc
  show step (step s (Ev.call data ts)) (Ev.timerFire s.core.nextPromise) = _
  have h1 : step s (Ev.call data ts) =
      { core := (runBody s.core data ts).1,
        tasks := s.tasks ++ [outcomePhase (runBody s.core data ts).2] } := by
    simp only [step, hdec]
  rw [h1, hsub]
  simp only [step, outcomePhase]
  rw [if_pos (by simp)]
  rw [List.erase_cons_head]
  rw [htm]
  rw [resolveP_not_mem _ _ (by simpa using hnr)]
  rw [wakePass_append_done s.tasks _ _ hdone]
  simp [wakePass, runnable, runTask]

/-- A `frame` event arriving between calls, with exactly the stale
listener of a timed-out call registered: the frame is stored in the
empty slot, the listener is consumed, and nothing else changes. -/
theorem frame_step_late (s : Sys) (f p : Nat)
    (hhs : s.core.handlers = [p])
    (hpf : s.core.pendingFrame = none)
    (htm : s.core.timers = [])
    (hpm : p ∈ s.core.resolved)
    (hdone : ∀ t ∈ s.tasks, t.isDone = true) :
    step s (Ev.frame f) =
      { core := { s.core with
          pendingFrame := some f, handlers := [], timers := [],
          log := s.core.log ++ [Note.debugDecoded] },
        tasks := s.tasks } := by
  simp only [step]
  have hfh : fireHandlers s.core f =
      { s.core with
        pendingFrame := some f, handlers := [], timers := [],
        log := s.core.log ++ [Note.debugDecoded] } := by
    unfold fireHandlers
    rw [hhs, List.foldl_cons, List.foldl_nil]
    unfold fireOne
    rw [htm, List.erase_nil]
    rw [hpf]
    unfold resolveP
    rw [if_pos (by simpa using hpm)]
  rw [hfh]
  rw [show s.tasks = s.tasks ++ [] by simp] at hdone ⊢
  rw [wakePass_append_done s.tasks _ [] (by simpa using hdone)]
  simp [wakePass]

/-- C8 counterexample: a `decode()` call whose submission times out does
not always resolve with no frame — when the late completion of an
earlier timed-out submission was stored between the calls, the later
timed-out call returns that stale frame. -/
theorem decode_timeout_counterexample :
    (run Sys.init [Ev.call spsKeyChunk 0, Ev.timerFire 0, Ev.frame 100, Ev.call deltaChunk 1,
      Ev.timerFire 1]).tasks = [Phase.done none, Phase.done (some 100)] ∧
    (run Sys.init [Ev.call spsKeyChunk 0, Ev.timerFire 0, Ev.frame 100, Ev.call deltaChunk 1,
      Ev.timerFire 1]).core.submissions.length = 2 := by
  constructor <;> decide

/-- C8 amended: a `decode()` call on a quiescent orchestrator (no frame
stored) whose submission does not complete within the timeout resolves
non-fatally with no frame and the warning; the submission is not
cancelled — it stays in the engine log and its completion listener stays
registered, so a late completion is still accepted and stored; a later
call that itself produces no completion then returns (claims) the
stored late frame — a timed-out call thus returns the late-stored frame
when one is present at its completion. -/
theorem decode_timeout_amended (s : Sys) (data data2 : List Nat) (ts ts2 f : Nat)
    (hdec : s.core.decoding = none)
    (hpf : s.core.pendingFrame = none)
    (he : s.core.engine = EngineState.configured)
    (hk : s.core.hasKeyframe = true)
    (hc : s.core.naluStreamInfo = some { kind := NaluKind.annexB, boxSize := 4 })
    (htm : s.core.timers = [])
    (hh : s.core.handlers = [])
    (hnr : ∀ q, s.core.nextPromise ≤ q → q ∉ s.core.resolved)
    (hdone : ∀ t ∈ s.tasks, t.isDone = true) :
    (run s [Ev.call data ts, Ev.timerFire s.core.nextPromise]).tasks =
      s.tasks ++ [Phase.done none] ∧
    Note.warnTimeout ∈ (run s [Ev.call data ts, Ev.timerFire s.core.nextPromise]).core.log ∧
    (run s [Ev.call data ts, Ev.timerFire s.core.nextPromise]).core.submissions =
      s.core.submissions ++
        [{ key := isKeyFrame data, data := data, sentTimestamp := s.core.timestamp }] ∧
    (run s [Ev.call data ts, Ev.timerFire s.core.nextPromise]).core.handlers =
      [s.core.nextPromise] ∧
    (run s [Ev.call data ts, Ev.timerFire s.core.nextPromise,
      Ev.frame f]).core.pendingFrame = some f ∧
    (run s [Ev.call data ts, Ev.timerFire s.core.nextPromise, Ev.frame f,
      Ev.call data2 ts2, Ev.timerFire (s.core.nextPromise + 1)]).tasks =
      s.tasks ++ [Phase.done none, Phase.done (some f)] := by
  have h1 := call_then_timeout_eq s data ts hdec he hk hc htm
    (hnr s.core.nextPromise (Nat.le_refl _)) hdone
  have hrun2 : run s [Ev.call data ts, Ev.timerFire s.core.nextPromise, Ev.frame f] =
      step (run s [Ev.call data ts, Ev.timerFire s.core.nextPromise]) (Ev.frame f) := rfl
  have hdone1 : ∀ t ∈ (run s [Ev.call data ts, Ev.timerFire s.core.nextPromise]).tasks,
      t.isDone = true := by
    rw [h1]
    intro t ht
    rcases List.mem_append.1 ht with h | h
    · exact hdone t h
    · simp at h
      rw [h, hpf]
      rfl
  have h2 : step (run s [Ev.call data ts, Ev.timerFire s.core.nextPromise]) (Ev.frame f) =
      { core := { (run s [Ev.call data ts, Ev.timerFire s.core.nextPromise]).core with
          pendingFrame := some f, handlers := [], timers := [],
          log := (run s [Ev.call data ts, Ev.timerFire s.core.nextPromise]).core.log ++
            [Note.debugDecoded] },
        tasks := (run s [Ev.call data ts, Ev.timerFire s.core.nextPromise]).tasks } := by
    refine frame_step_late _ f s.core.nextPromise ?_ ?_ ?_ ?_ hdone1
    · rw [h1]; simp [hh]
    · rw [h1]
    · rw [h1]
    · rw [h1]; simp
  have h3 := call_then_timeout_eq
    (run s [Ev.call data ts, Ev.timerFire s.core.nextPromise, Ev.frame f]) data2 ts2
    (by rw [hrun2, h2, h1]) (by rw [hrun2, h2, h1]; simpa using he)
    (by rw [hrun2, h2, h1]) (by rw [hrun2, h2, h1]) (by rw [hrun2, h2, h1])
    (by
      rw [hrun2, h2, h1]
      simp only []
      intro hmem
      rcases List.mem_cons.1 hmem with h | h
      · exact Nat.succ_ne_self _ h
      · exact hnr _ (Nat.le_succ _) h)
    (by rw [hrun2, h2]; exact hdone1)
  refine ⟨by rw [h1, hpf], by rw [h1]; simp, by rw [h1], by rw [h1, hh]; rfl,
    by rw [hrun2, h2], ?_⟩
  have hrun5 : run s [Ev.call data ts, Ev.timerFire s.core.nextPromise, Ev.frame f,
      Ev.call data2 ts2, Ev.timerFire (s.core.nextPromise + 1)] =
      run (run s [Ev.call data ts, Ev.timerFire s.core.nextPromise, Ev.frame f])
        [Ev.call data2 ts2, Ev.timerFire (s.core.nextPromise + 1)] := rfl
  rw [hrun5]
  have hnp : (run s [Ev.call data ts, Ev.timerFire s.core.nextPromise,
      Ev.frame f]).core.nextPromise = s.core.nextPromise + 1 := by
    rw [hrun2, h2, h1]
  rw [hnp] at h3
  rw [h3]
  simp only []
  rw [hrun2, h2, h1]
  simp [hpf]

/-- A quiescent configured state with the keyframe gate open, reached by
configuring on an SPS chunk and decoding a key chunk to a frame. -/
def s8 : Sys := run Sys.init [Ev.call spsOnlyChunk 0, Ev.call keyChunk 1, Ev.frame 90]

/-- C8 witness: the amended timeout theorem applied at `s8` with
concrete delta chunks and a concrete late frame. -/
theorem decode_timeout_amended_witness :
    (run s8 [Ev.call deltaChunk 7, Ev.timerFire s8.core.nextPromise]).tasks =
      s8.tasks ++ [Phase.done none] ∧
    Note.warnTimeout ∈ (run s8 [Ev.call deltaChunk 7,
      Ev.timerFire s8.core.nextPromise]).core.log ∧
    (run s8 [Ev.call deltaChunk 7, Ev.timerFire s8.core.nextPromise]).core.submissions =
      s8.core.submissions ++
        [{ key := isKeyFrame deltaChunk, data := deltaChunk,
           sentTimestamp := s8.core.timestamp }] ∧
    (run s8 [Ev.call deltaChunk 7, Ev.timerFire s8.core.nextPromise]).core.handlers =
      [s8.core.nextPromise] ∧
    (run s8 [Ev.call deltaChunk 7, Ev.timerFire s8.core.nextPromise,
      Ev.frame 200]).core.pendingFrame = some 200 ∧
    (run s8 [Ev.call deltaChunk 7, Ev.timerFire s8.core.nextPromise, Ev.frame 200,
      Ev.call deltaChunk 8, Ev.timerFire (s8.core.nextPromise + 1)]).tasks =
      s8.tasks ++ [Phase.done none, Phase.done (some 200)] :=
  decode_timeout_amended s8 deltaChunk deltaChunk 7 8 200 (by decide) (by decide) (by decide)
    (by decide) (by decide) (by decide) (by decide)
    (fun q hq => by
      have h1 : s8.core.nextPromise = 1 := by decide
      have h2 : s8.core.resolved = [0] := by decide
      rw [h1] at hq
      rw [h2]
      simp
      omega)
    (by decide)

end H264
